import Mathlib

/-!
Verification development for the SITE terminal text editor (main.go).

The Go source is shallowly embedded:
* `TokenType`, `FileFormat`, `Token`, `EmbeddedContext` mirror the Go types
  of the same names (Go's `Token.End` is the field `stop` here, since `end`
  is reserved in Lean; `Token.Context` is `context`).
* A regular-expression pattern of the source is embedded as a function
  `List Char → List RMatch` returning, in leftmost non-overlapping order,
  what Go's `FindAllStringSubmatchIndex` returns: the full-match span plus
  the span of the capture group the source code reads (absent when the
  pattern has no group or the group did not participate).  Lines are lists
  of characters; for the ASCII inputs used throughout, character indices
  coincide with Go's byte indices.
* `tokenizeLine` follows the four phases and the final exchange sort of
  `(*SyntaxHighlighter).tokenizeLine` / `addContextSpecificTokens`.
  Because the pattern table is a Go `map` iterated with `range`, the
  iteration order is not fixed by the source; a `Grammar` therefore holds
  the patterns as an explicit list, and claims about determinism quantify
  over (or exhibit) enumeration orders of the same table.
-/

inductive TokenType where
  | TokenNormal
  | TokenKeyword
  | TokenString
  | TokenComment
  | TokenNumber
  | TokenOperator
  | TokenFunction
  | TokenType_
  | TokenVariable
  | TokenConstant
  | TokenClass
  | TokenMethod
  | TokenProperty
  | TokenTag
  | TokenAttribute
  | TokenValue
  | TokenDoctype
  | TokenEntity
  | TokenSelector
  | TokenPseudo
  | TokenImportant
  | TokenUnit
  | TokenPreprocessor
  | TokenRegex
  | TokenEscape
  | TokenDelimiter
  | TokenNamespace
  | TokenAnnotation
  | TokenMacro
  deriving DecidableEq, Repr

export TokenType (TokenNormal TokenKeyword TokenString TokenComment TokenNumber TokenOperator TokenFunction TokenType_ TokenVariable TokenConstant TokenClass TokenMethod TokenProperty TokenTag TokenAttribute TokenValue TokenDoctype TokenEntity TokenSelector TokenPseudo TokenImportant TokenUnit TokenPreprocessor TokenRegex TokenEscape TokenDelimiter TokenNamespace)

inductive FileFormat where
  | PlainText
  | Go
  | JavaScript
  | Python
  | HTML
  | CSS
  | JSON
  | Markdown
  | Shell
  | C
  | CPP
  | Rust
  | Java
  | PHP
  | SquidPlusPlus
  deriving DecidableEq, Repr

export FileFormat (PlainText JavaScript Python HTML CSS Markdown Shell CPP Rust Java PHP SquidPlusPlus)

/-- Go struct `Token {Type; Start; End; Context}`; `stop` embeds `End`. -/
structure Token where
  type : TokenType
  start : Nat
  stop : Nat
  context : FileFormat
  deriving DecidableEq, Repr

/-- Go struct `EmbeddedContext {Format; Start; End}`. -/
structure EmbeddedContext where
  format : FileFormat
  start : Nat
  stop : Nat
  deriving DecidableEq, Repr

/-- One element of Go's `FindAllStringSubmatchIndex` result: the full-match
span `[start, stop)` plus the capture-group span the source reads
(`match[2], match[3]`, or `match[4], match[5]` for the one pattern whose
second group is used), `none` when absent or non-participating. -/
structure RMatch where
  start : Nat
  stop : Nat
  group1 : Option (Nat × Nat)
  deriving DecidableEq, Repr

/-- The per-language content of a `SyntaxHighlighter`: the keyword set and
the pattern table (`map[TokenType]*regexp.Regexp`), plus the extra
hard-coded patterns of `addContextSpecificTokens` for this format
(`refinements`).  `patterns` is listed in one enumeration order of the Go
map. -/
structure Grammar where
  format : FileFormat
  keywords : List String
  patterns : List (TokenType × (List Char → List RMatch))
  refinements : List (TokenType × (List Char → List RMatch))

/-- `(*SyntaxHighlighter).isPositionCovered`: containment of `[start,stop)`
in some existing token's span. -/
def isPositionCovered (start stop : Nat) (tokens : List Token) : Bool :=
  tokens.any (fun t => decide (t.start ≤ start) && decide (stop ≤ t.stop))

/-- Inner loop of the exchange sort the source uses
(`for i; for j > i; if tokens[i].Start > tokens[j].Start swap`): one outer
iteration threads the current front element through the tail. -/
def exchInner (cur : Token) : List Token → Token × List Token
  | [] => (cur, [])
  | x :: xs =>
    if cur.start > x.start then
      let r := exchInner x xs
      (r.1, cur :: r.2)
    else
      let r := exchInner cur xs
      (r.1, x :: r.2)

def sortTokensAux : Nat → List Token → List Token
  | 0, l => l
  | _ + 1, [] => []
  | fuel + 1, x :: xs =>
    let r := exchInner x xs
    r.1 :: sortTokensAux fuel r.2

/-- The double-loop sort by `Start` used at the end of `tokenizeLine` and
`tokenizeLineWithContext`. -/
def sortTokens (l : List Token) : List Token :=
  sortTokensAux l.length l

/-- Phase 1 of `tokenizeLine`: emit every match of the string / comment /
doctype patterns, with no coverage check (`FindAllStringIndex`, full spans
only). -/
def phase1Tokens (g : Grammar) (line : List Char) : List Token :=
  g.patterns.foldl
    (fun acc p =>
      if p.1 = TokenString ∨ p.1 = TokenComment ∨ p.1 = TokenDoctype then
        acc ++ (p.2 line).map (fun m => Token.mk p.1 m.start m.stop g.format)
      else acc)
    []

def isWordChar (c : Char) : Bool :=
  c.isAlpha || c.isDigit || c = '_'

/-- Spans of the matches of `\b\w+\b` (maximal runs of word characters,
which is what the regex yields on ASCII text), ascending; the fuel
argument only bounds the recursion. -/
def wordSpansAux : Nat → List Char → Nat → List (Nat × Nat)
  | 0, _, _ => []
  | _ + 1, [], _ => []
  | fuel + 1, c :: rest, i =>
    if isWordChar c then
      let run := rest.takeWhile isWordChar
      let n := run.length + 1
      (i, i + n) :: wordSpansAux fuel (rest.drop run.length) (i + n)
    else
      wordSpansAux fuel rest (i + 1)

def wordSpans (line : List Char) : List (Nat × Nat) :=
  wordSpansAux (line.length + 1) line 0

/-- One iteration of phase 2: skip the word if covered, else emit a
keyword token when the word is in the grammar's keyword set. -/
def keywordStep (g : Grammar) (line : List Char) (acc : List Token) (w : Nat × Nat) : List Token :=
  if isPositionCovered w.1 w.2 acc then acc
  else if g.keywords.contains (String.mk ((line.drop w.1).take (w.2 - w.1))) then
    acc ++ [Token.mk TokenKeyword w.1 w.2 g.format]
  else acc

/-- Phase 2 of `tokenizeLine`: the keyword scan over all maximal words. -/
def keywordPass (g : Grammar) (line : List Char) (tokens : List Token) : List Token :=
  (wordSpans line).foldl (keywordStep g line) tokens

/-- Phase 3 of `tokenizeLine`: every remaining pattern; coverage is tested
on the full-match span, then the capture-group span (when present) is the
one emitted. -/
def residualPass (g : Grammar) (line : List Char) (tokens : List Token) : List Token :=
  g.patterns.foldl
    (fun acc p =>
      if p.1 = TokenString ∨ p.1 = TokenComment ∨ p.1 = TokenDoctype then acc
      else
        (p.2 line).foldl
          (fun acc2 m =>
            if isPositionCovered m.start m.stop acc2 then acc2
            else
              let sp := m.group1.getD (m.start, m.stop)
              acc2 ++ [Token.mk p.1 sp.1 sp.2 g.format])
          acc)
    tokens

/-- Phase 4, `addContextSpecificTokens`: the format's hard-coded extra
patterns; here both the coverage test and the emitted token use the span
the source reads (group span when the source reads the group). -/
def refinementPass (g : Grammar) (line : List Char) (tokens : List Token) : List Token :=
  g.refinements.foldl
    (fun acc p =>
      (p.2 line).foldl
        (fun acc2 m =>
          let sp := m.group1.getD (m.start, m.stop)
          if isPositionCovered sp.1 sp.2 acc2 then acc2
          else acc2 ++ [Token.mk p.1 sp.1 sp.2 g.format])
        acc)
    tokens

/-- `(*SyntaxHighlighter).tokenizeLine`: early return for PlainText, then
phase 1, sort, phases 2-4, final sort. -/
def tokenizeLine (g : Grammar) (line : List Char) : List Token :=
  if g.format = PlainText then []
  else
    sortTokens
      (refinementPass g line
        (residualPass g line
          (keywordPass g line
            (sortTokens (phase1Tokens g line)))))

/-- The structural part of a `SyntaxHighlighter`: its `format` field and
its `embeddedHighlighters` table (an association list standing for the Go
map).  The keyword/pattern content is a function of the format alone (the
`setupXxxHighlighting` methods), so theorems about highlighters take a
`FileFormat → Grammar` table as a parameter. -/
inductive Highlighter where
  | mk (format : FileFormat) (embeddedHighlighters : List (FileFormat × Highlighter))

def Highlighter.format : Highlighter → FileFormat
  | .mk f _ => f

def Highlighter.embeddedHighlighters : Highlighter → List (FileFormat × Highlighter)
  | .mk _ l => l

/-- The format actually stored by `createBasicSyntaxHighlighter`'s switch:
formats without a case (JSON, Markdown, Shell, SquidPlusPlus) fall to
`default`, which sets `h.format = PlainText`. -/
def basicFormatAdjust (f : FileFormat) : FileFormat :=
  match f with
  | FileFormat.Go => FileFormat.Go
  | JavaScript => JavaScript
  | Python => Python
  | HTML => HTML
  | CSS => CSS
  | Java => Java
  | Rust => Rust
  | FileFormat.C => FileFormat.C
  | CPP => CPP
  | PHP => PHP
  | PlainText => PlainText
  | _ => PlainText

/-- `createBasicSyntaxHighlighter`: same keyword/pattern setup switch, but
the embedded-highlighter table is left empty ("Do not call
setupEmbeddedHighlighters to avoid recursion"). -/
def createBasicSyntaxHighlighter (f : FileFormat) : Highlighter :=
  Highlighter.mk (basicFormatAdjust f) []

/-- `(*SyntaxHighlighter).setupEmbeddedHighlighters` (main.go): HTML and
PHP embed JavaScript and CSS, Shell embeds JavaScript and Python, all via
`createBasicSyntaxHighlighter`. -/
def setupEmbeddedHighlighters (f : FileFormat) : List (FileFormat × Highlighter) :=
  match f with
  | HTML => [(JavaScript, createBasicSyntaxHighlighter JavaScript),
             (CSS, createBasicSyntaxHighlighter CSS)]
  | PHP => [(JavaScript, createBasicSyntaxHighlighter JavaScript),
            (CSS, createBasicSyntaxHighlighter CSS)]
  | Shell => [(JavaScript, createBasicSyntaxHighlighter JavaScript),
              (Python, createBasicSyntaxHighlighter Python)]
  | _ => []

/-- The format stored by `NewSyntaxHighlighter`'s switch: it additionally
has a `SquidPlusPlus` case, but JSON, Markdown and Shell still fall to
`default` (format becomes PlainText). -/
def newFormatAdjust (f : FileFormat) : FileFormat :=
  match f with
  | SquidPlusPlus => SquidPlusPlus
  | g => basicFormatAdjust g

/-- `NewSyntaxHighlighter`: setup switch, then
`h.setupEmbeddedHighlighters()` on the (possibly adjusted) format. -/
def NewSyntaxHighlighter (f : FileFormat) : Highlighter :=
  Highlighter.mk (newFormatAdjust f) (setupEmbeddedHighlighters (newFormatAdjust f))

/-- Lookup in the embedded-highlighter table (`h.embeddedHighlighters[ctx.Format]`). -/
def lookupEmbedded : List (FileFormat × Highlighter) → FileFormat → Option Highlighter
  | [], _ => none
  | (k, h) :: t, f => if k = f then some h else lookupEmbedded t f

/-- `(*SyntaxHighlighter).tokenizeLineWithContext`.  `go` is the per-format
grammar table and `dc` the per-format `detectEmbeddedContexts` relation
(both are functions of the format alone in the source). -/
def tokenizeLineWithContext (go : FileFormat → Grammar)
    (dc : FileFormat → List Char → List EmbeddedContext)
    (h : Highlighter) (line : List Char) : List Token × List EmbeddedContext :=
  if h.format = PlainText then ([], [])
  else
    let contexts := dc h.format line
    let tokens := tokenizeLine (go h.format) line
    let tokens := contexts.foldl
      (fun acc ctx =>
        match lookupEmbedded h.embeddedHighlighters ctx.format with
        | some sub =>
          let embeddedText := (line.drop ctx.start).take (ctx.stop - ctx.start)
          let embeddedTokens := tokenizeLine (go sub.format) embeddedText
          acc ++ embeddedTokens.map
            (fun t => Token.mk t.type (t.start + ctx.start) (t.stop + ctx.start) ctx.format)
        | none => acc)
      tokens
    (sortTokens tokens, contexts)

/-- Characters of Go's regexp class `\s`. -/
def goSpace (c : Char) : Bool :=
  c = ' ' || c = '\t' || c = '\n' || c = '\r' || c = '\x0c'

/-- First index `≥ idx` (the second argument tracks the absolute index of
the list head) at which `pat` occurs in the remaining text. -/
def findSubIn (pat : List Char) : List Char → Nat → Option Nat
  | [], idx => if pat.isPrefixOf ([] : List Char) then some idx else none
  | c :: t, idx => if pat.isPrefixOf (c :: t) then some idx else findSubIn pat t (idx + 1)

/-- Leftmost match attempt: try `tryAt` at `i`, `i+1`, ... (`fuel` bounds
the scan; callers pass enough fuel to reach the end of the line). -/
def firstFrom (tryAt : Nat → Option (RMatch × Nat)) : Nat → Nat → Option (RMatch × Nat)
  | 0, _ => none
  | fuel + 1, i =>
    match tryAt i with
    | some r => some r
    | none => firstFrom tryAt fuel (i + 1)

def scanAll (first : Nat → Option (RMatch × Nat)) : Nat → Nat → List RMatch
  | 0, _ => []
  | fuel + 1, i =>
    match first i with
    | some (m, nxt) => m :: scanAll first fuel (max nxt (i + 1))
    | none => []

/-- `FindAll…` driver: leftmost, non-overlapping, resuming after each
match (all embedded patterns have positive width). -/
def findAllMatches (tryAt : Nat → Option (RMatch × Nat)) (len : Nat) : List RMatch :=
  scanAll (fun i => firstFrom tryAt (len + 1 - i) i) (len + 1) 0

/-- `<!--[\s\S]*?-->`: lazily, the first `-->` at or after the end of
`<!--` closes the comment. -/
def htmlCommentTry (s : List Char) (i : Nat) : Option (RMatch × Nat) :=
  if ['<', '!', '-', '-'].isPrefixOf (s.drop i) then
    match findSubIn ['-', '-', '>'] (s.drop (i + 4)) (i + 4) with
    | some b => some (RMatch.mk i (b + 3) none, b + 3)
    | none => none
  else none

def htmlCommentFind (s : List Char) : List RMatch :=
  findAllMatches (htmlCommentTry s) s.length

/-- `<!DOCTYPE[^>]*>`: the literal, then everything up to the next `>`. -/
def htmlDoctypeTry (s : List Char) (i : Nat) : Option (RMatch × Nat) :=
  if "<!DOCTYPE".data.isPrefixOf (s.drop i) then
    match findSubIn ['>'] (s.drop (i + 9)) (i + 9) with
    | some b => some (RMatch.mk i (b + 1) none, b + 1)
    | none => none
  else none

def htmlDoctypeFind (s : List Char) : List RMatch :=
  findAllMatches (htmlDoctypeTry s) s.length

/-- `</?[a-zA-Z][a-zA-Z0-9]*`. -/
def htmlTagTry (s : List Char) (i : Nat) : Option (RMatch × Nat) :=
  match s.get? i with
  | some '<' =>
    let k := match s.get? (i + 1) with
      | some '/' => i + 2
      | _ => i + 1
    match s.get? k with
    | some c =>
      if c.isAlpha then
        let run := (s.drop (k + 1)).takeWhile (fun d => d.isAlpha || d.isDigit)
        some (RMatch.mk i (k + 1 + run.length) none, k + 1 + run.length)
      else none
    | none => none
  | _ => none

def htmlTagFind (s : List Char) : List RMatch :=
  findAllMatches (htmlTagTry s) s.length

def wordAtPos (s : List Char) (i : Nat) : Bool :=
  match s.get? i with
  | some c => isWordChar c
  | none => false

/-- `\b` holds at position `i`. -/
def wordBoundary (s : List Char) (i : Nat) : Bool :=
  if i = 0 then wordAtPos s 0 else wordAtPos s (i - 1) != wordAtPos s i

/-- `\b[a-zA-Z-]+\s*=` (no capture group). -/
def htmlAttributeTry (s : List Char) (i : Nat) : Option (RMatch × Nat) :=
  if wordBoundary s i then
    match s.get? i with
    | some c =>
      if c.isAlpha || c = '-' then
        let run := (s.drop i).takeWhile (fun d => d.isAlpha || d = '-')
        let p := i + run.length
        let sp := (s.drop p).takeWhile goSpace
        let q := p + sp.length
        match s.get? q with
        | some '=' => some (RMatch.mk i (q + 1) none, q + 1)
        | _ => none
      else none
    | none => none
  else none

def htmlAttributeFind (s : List Char) : List RMatch :=
  findAllMatches (htmlAttributeTry s) s.length

/-- Body of a quoted literal `([^q\\]|\\.)*q` starting after the opening
quote at absolute position `p`; returns the position after the closing
quote and the span of the last repetition of the group (Go submatch
indices report the final iteration of a starred group). -/
def quoteBody (q : Char) : List Char → Nat → Option (Nat × Nat) → Option (Nat × Option (Nat × Nat))
  | [], _, _ => none
  | c :: t, p, last =>
    if c = q then some (p + 1, last)
    else if c = '\\' then
      match t with
      | [] => none
      | _ :: t2 => quoteBody q t2 (p + 2) (some (p, p + 2))
    else quoteBody q t (p + 1) (some (p, p + 1))

/-- `"([^"\\]|\\.)*"|'([^'\\]|\\.)*'`.  The caller reads only group 1
(`match[2]`, `match[3]`), which participates only in the double-quoted
alternative, so single-quoted matches carry no group span. -/
def htmlValueTry (s : List Char) (i : Nat) : Option (RMatch × Nat) :=
  match s.get? i with
  | some c =>
    if c = '"' || c = '\'' then
      match quoteBody c (s.drop (i + 1)) (i + 1) none with
      | some (e, last) =>
        some (RMatch.mk i e (if c = '"' then last else none), e)
      | none => none
    else none
  | none => none

def htmlValueFind (s : List Char) : List RMatch :=
  findAllMatches (htmlValueTry s) s.length

/-- `&[a-zA-Z][a-zA-Z0-9]*;|&#\d+;|&#x[0-9a-fA-F]+;` (alternatives tried
in order). -/
def htmlEntityTry (s : List Char) (i : Nat) : Option (RMatch × Nat) :=
  match s.get? i with
  | some '&' =>
    match s.get? (i + 1) with
    | some c =>
      if c.isAlpha then
        let run := (s.drop (i + 2)).takeWhile (fun d => d.isAlpha || d.isDigit)
        let k := i + 2 + run.length
        match s.get? k with
        | some ';' => some (RMatch.mk i (k + 1) none, k + 1)
        | _ => none
      else if c = '#' then
        let dig := (s.drop (i + 2)).takeWhile Char.isDigit
        let k := i + 2 + dig.length
        if dig.length > 0 && s.get? k = some ';' then
          some (RMatch.mk i (k + 1) none, k + 1)
        else if s.get? (i + 2) = some 'x' then
          let hex := (s.drop (i + 3)).takeWhile (fun d => d.isDigit || ('a' ≤ d && d ≤ 'f') || ('A' ≤ d && d ≤ 'F'))
          let k2 := i + 3 + hex.length
          if hex.length > 0 && s.get? k2 = some ';' then
            some (RMatch.mk i (k2 + 1) none, k2 + 1)
          else none
        else none
      else none
    | none => none
  | _ => none

def htmlEntityFind (s : List Char) : List RMatch :=
  findAllMatches (htmlEntityTry s) s.length

/-- `[<>/=]`. -/
def htmlDelimiterTry (s : List Char) (i : Nat) : Option (RMatch × Nat) :=
  match s.get? i with
  | some c =>
    if c = '<' || c = '>' || c = '/' || c = '=' then
      some (RMatch.mk i (i + 1) none, i + 1)
    else none
  | none => none

def htmlDelimiterFind (s : List Char) : List RMatch :=
  findAllMatches (htmlDelimiterTry s) s.length

/-- `(\w+)=` from the HTML case of `addContextSpecificTokens`; the group
span is the word. -/
def htmlAttrRefTry (s : List Char) (i : Nat) : Option (RMatch × Nat) :=
  match s.get? i with
  | some c =>
    if isWordChar c then
      let run := (s.drop i).takeWhile isWordChar
      let p := i + run.length
      match s.get? p with
      | some '=' => some (RMatch.mk i (p + 1) (some (i, p)), p + 1)
      | _ => none
    else none
  | none => none

def htmlAttrRefFind (s : List Char) : List RMatch :=
  findAllMatches (htmlAttrRefTry s) s.length

/-- The keyword set of `setupHTMLHighlighting`. -/
def htmlKeywords : List String :=
  ["html", "head", "body", "title", "meta", "script", "style", "link", "div", "span", "p",
   "h1", "h2", "h3", "h4", "h5", "h6", "ul", "ol", "li", "a", "img", "table", "tr", "td",
   "th", "caption", "form", "input", "textarea", "button", "select", "option", "label",
   "br", "hr", "blockquote", "cite", "code", "pre", "kbd", "samp", "var", "small", "strong",
   "em", "b", "i", "u", "s", "del", "ins", "sup", "sub", "mark", "ruby", "rt", "rp", "bdi",
   "bdo", "iframe", "picture", "source", "video", "audio", "track", "canvas", "map", "area",
   "base", "nav", "section", "article", "aside", "header", "footer", "main", "figure",
   "figcaption", "details", "summary", "dialog", "menu", "menuitem"]

/-- The HTML pattern table in one map-enumeration order (Attribute listed
before Delimiter). -/
def htmlPatternsA : List (TokenType × (List Char → List RMatch)) :=
  [(TokenComment, htmlCommentFind),
   (TokenDoctype, htmlDoctypeFind),
   (TokenTag, htmlTagFind),
   (TokenValue, htmlValueFind),
   (TokenEntity, htmlEntityFind),
   (TokenAttribute, htmlAttributeFind),
   (TokenDelimiter, htmlDelimiterFind)]

/-- The same table in another enumeration order (Delimiter before
Attribute); Go map iteration does not fix which order a given run uses. -/
def htmlPatternsB : List (TokenType × (List Char → List RMatch)) :=
  [(TokenComment, htmlCommentFind),
   (TokenDoctype, htmlDoctypeFind),
   (TokenTag, htmlTagFind),
   (TokenValue, htmlValueFind),
   (TokenEntity, htmlEntityFind),
   (TokenDelimiter, htmlDelimiterFind),
   (TokenAttribute, htmlAttributeFind)]

def htmlGrammarA : Grammar :=
  Grammar.mk HTML htmlKeywords htmlPatternsA [(TokenAttribute, htmlAttrRefFind)]

def htmlGrammarB : Grammar :=
  Grammar.mk HTML htmlKeywords htmlPatternsB [(TokenAttribute, htmlAttrRefFind)]

/-- `{`, `}` and the backquote, by code point. -/
def lbraceChar : Char := Char.ofNat 123

def rbraceChar : Char := Char.ofNat 125

def backquoteChar : Char := Char.ofNat 96

/-- Characters trimmed by Go's `strings.TrimSpace` (ASCII subset). -/
def goWS (c : Char) : Bool :=
  c = ' ' || c = '\t' || c = '\n' || c = '\r' || c = '\x0b' || c = '\x0c'

/-- `detectIndentation`: the leading run of spaces/tabs. -/
def detectIndentation (line : String) : String :=
  String.mk (line.data.takeWhile (fun c => c = ' ' || c = '\t'))

/-- `strings.TrimLeft(ln, " \t")`. -/
def goTrimLeftSpTab (line : String) : String :=
  String.mk (line.data.dropWhile (fun c => c = ' ' || c = '\t'))

/-- `strings.TrimSpace`. -/
def goTrimSpace (line : String) : String :=
  String.mk (((line.data.dropWhile goWS).reverse.dropWhile goWS).reverse)

/-- `strings.ToLower` (ASCII). -/
def goToLower (s : String) : String :=
  String.mk (s.data.map Char.toLower)

/-- `strings.HasSuffix(s, suffix)`. -/
def hasSuffixStr (s suffix : String) : Bool :=
  suffix.data.isSuffixOf s.data

/-- `strings.Contains(s, sub)`. -/
def containsStr (s sub : String) : Bool :=
  (findSubIn sub.data s.data 0).isSome

/-- `strings.Count(s, sub)`; the two substrings the source counts (`"<"`,
`"</"`) cannot self-overlap, so counting every occurrence agrees with Go's
non-overlapping count. -/
def countSubStr (s sub : String) : Nat :=
  (List.range s.data.length).countP (fun i => sub.data.isPrefixOf (s.data.drop i))

/-- Byte access `ln[i]` (lines are ASCII in every concrete statement, so
character and byte indices agree; every use is range-guarded as in Go). -/
def strCharAt (s : String) (i : Nat) : Char :=
  s.data.getD i ' '

/-- `getDedentedIndentation`. -/
def getDedentedIndentation (indent : String) : String :=
  if indent.length = 0 then ""
  else if strCharAt indent (indent.length - 1) = '\t' then
    String.mk indent.data.dropLast
  else if indent.length ≥ 4 ∧ indent.data.drop (indent.length - 4) = [' ', ' ', ' ', ' '] then
    String.mk (indent.data.take (indent.length - 4))
  else indent

/-- `endsWithBlockKeyword`'s keyword list. -/
def blockKeywords : List String :=
  ["if", "else", "elif", "while", "for", "switch", "case", "default",
   "try", "catch", "finally", "function", "class", "struct", "interface",
   "do", "foreach", "match", "impl", "trait", "mod", "fn", "el"]

def endsWithBlockKeyword (line : String) : Bool :=
  blockKeywords.any (fun k => hasSuffixStr line k)

/-- `endsWithSquidPlusPlusBlockKeyword` (the `{` keyword written by code
point). -/
def squidBlockKeywords : List String :=
  ["if", "el", "while", "for", "def", "\x7b"]

def endsWithSquidPlusPlusBlockKeyword (line : String) : Bool :=
  squidBlockKeywords.any (fun k => hasSuffixStr line k || hasSuffixStr line (k ++ " \x7b"))

def pythonBlockKeywords : List String :=
  ["if", "elif", "else", "while", "for", "def", "class", "try", "except",
   "finally", "with", "async def", "async with", "match", "case"]

def endsWithPythonBlockKeyword (line : String) : Bool :=
  pythonBlockKeywords.any (fun k => hasSuffixStr line (k ++ ":"))

/-- The editor state (`Editor` struct), restricted to the fields the
claims are about; screen/scroll/file-handle fields and the derived
`cursorVisualCol` are omitted — no modeled operation reads them. -/
structure Editor where
  lines : List String
  cursorLine : Nat
  cursorCol : Nat
  lineTokens : List (List Token)
  embeddedContexts : List (List EmbeddedContext)
  format : FileFormat
  dirty : Bool
  deriving DecidableEq, Repr

/-- The per-line tokenizer the editor calls
(`e.highlighter.tokenizeLineWithContext`); editor theorems are parametric
in it. -/
abbrev Tlwc := String → List Token × List EmbeddedContext

/-- `(*Editor).updateLineTokens` (the `highlighter == nil` branch is
unreachable: `NewEditor` and `detectFormat` always install one). -/
def updateLineTokens (tlwc : Tlwc) (e : Editor) (lineIdx : Nat) : Editor :=
  if lineIdx ≥ e.lines.length ∨ lineIdx ≥ e.lineTokens.length then e
  else
    let r := tlwc (e.lines.getD lineIdx "")
    { e with lineTokens := e.lineTokens.set lineIdx r.1,
             embeddedContexts := e.embeddedContexts.set lineIdx r.2 }

/-- `(*Editor).updateSyntaxHighlighting`: fresh arrays of length
`len(lines)`, then every line re-tokenized (the per-index guard in
`updateLineTokens` never fires there). -/
def updateSyntaxHighlighting (tlwc : Tlwc) (e : Editor) : Editor :=
  { e with lineTokens := e.lines.map (fun l => (tlwc l).1),
           embeddedContexts := e.lines.map (fun l => (tlwc l).2) }

/-- `getSmartIndentation`. -/
def getSmartIndentation (e : Editor) (lineIdx : Nat) : String :=
  if lineIdx = 0 then ""
  else
    let prevLine := e.lines.getD (lineIdx - 1) ""
    let baseIndent := detectIndentation prevLine
    let trimmed := goTrimSpace prevLine
    let kwPart :=
      let trimmedLower := goToLower trimmed
      match e.format with
      | FileFormat.Go | FileFormat.C | CPP | Java | JavaScript | PHP | Rust =>
        if endsWithBlockKeyword trimmedLower then baseIndent ++ "\t" else baseIndent
      | Python =>
        if endsWithPythonBlockKeyword trimmedLower then baseIndent ++ "\t" else baseIndent
      | SquidPlusPlus =>
        if endsWithSquidPlusPlusBlockKeyword trimmedLower then baseIndent ++ "\t" else baseIndent
      | _ => baseIndent
    if 0 < trimmed.length then
      let lastChar := strCharAt trimmed (trimmed.length - 1)
      if lastChar = lbraceChar ∨ lastChar = '[' ∨ lastChar = '(' then baseIndent ++ "\t"
      else if lastChar = ':' ∧ (e.format = Python ∨ e.format = CSS) then baseIndent ++ "\t"
      else if lastChar = '>' ∧ containsStr trimmed "<" ∧ ¬ hasSuffixStr trimmed "/>" ∧
              ¬ hasSuffixStr trimmed "-->" ∧ ¬ containsStr trimmed "<!" ∧
              0 < countSubStr trimmed "<" - countSubStr trimmed "</" then baseIndent ++ "\t"
      else kwPart
    else kwPart

/-- `{`/`}`, `[`/`]`, `(`/`)` adjacency test used by Enter and Backspace. -/
def isBracketPair (prev next : Char) : Bool :=
  (prev = lbraceChar && next = rbraceChar) ||
  (prev = '[' && next = ']') ||
  (prev = '(' && next = ')')

/-- `e.autoClosePairs` as set by `NewEditor`. -/
def autoClosePairs : List (Char × Char) :=
  [('(', ')'), ('[', ']'), (lbraceChar, rbraceChar),
   ('"', '"'), ('\'', '\''), (backquoteChar, backquoteChar)]

/-- `removeAt l i` models `append(l[:i], l[i+1:]...)`. -/
def removeAt (l : List α) (i : Nat) : List α :=
  l.take i ++ l.drop (i + 1)

/-- `insertAllAt l i xs` models `append(l[:i], append(xs, l[i:]...)...)`. -/
def insertAllAt (l : List α) (i : Nat) (xs : List α) : List α :=
  l.take i ++ xs ++ l.drop i

/-- `shouldAutoCloseQuote`: even count of the quote before the cursor. -/
def shouldAutoCloseQuote (e : Editor) (quote : Char) (line : String) : Bool :=
  (line.take e.cursorCol).data.count quote % 2 = 0

/-- `insertAutoClosePair`. -/
def insertAutoClosePair (tlwc : Tlwc) (e : Editor) (openC closeC : Char) : Editor :=
  let ln := e.lines.getD e.cursorLine ""
  let e2 := { e with
    lines := e.lines.set e.cursorLine
      (ln.take e.cursorCol ++ String.mk [openC] ++ String.mk [closeC] ++ ln.drop e.cursorCol),
    cursorCol := e.cursorCol + 1 }
  updateLineTokens tlwc e2 e2.cursorLine

/-- The `for _, pair := range e.autoClosePairs` loop of `handleRuneInput`;
`ln` is the line text captured at the top of `handleRuneInput` (stale if
the dedent branch rewrote the line, exactly as in the source). -/
def runePairLoop (tlwc : Tlwc) (r : Char) (ln : String) (e : Editor) :
    List (Char × Char) → Option Editor
  | [] => none
  | pr :: rest =>
    if r = pr.1 then
      if pr.1 = pr.2 then
        if shouldAutoCloseQuote e r ln then some (insertAutoClosePair tlwc e pr.1 pr.2)
        else runePairLoop tlwc r ln e rest
      else some (insertAutoClosePair tlwc e pr.1 pr.2)
    else if r = pr.2 ∧ pr.1 ≠ pr.2 then
      if e.cursorCol < ln.length ∧ strCharAt ln e.cursorCol = r then
        some { e with cursorCol := e.cursorCol + 1 }
      else runePairLoop tlwc r ln e rest
    else runePairLoop tlwc r ln e rest

/-- The leading auto-dedent step of `handleRuneInput` (closing bracket
typed with `cursorCol` equal to the length of the *trimmed* line — that is
what the source compares against — on an indented line). -/
def runeDedentStage (r : Char) (e : Editor) : Editor :=
  let ln := e.lines.getD e.cursorLine ""
  if (r = rbraceChar ∨ r = ']' ∨ r = ')') ∧ e.cursorCol = (goTrimLeftSpTab ln).length ∧
      0 < (detectIndentation ln).length then
    let dedentedIndent := getDedentedIndentation (detectIndentation ln)
    { e with lines := e.lines.set e.cursorLine (dedentedIndent ++ goTrimLeftSpTab ln),
             cursorCol := dedentedIndent.length }
  else e

/-- The "Regular character insertion" tail of `handleRuneInput`; `ln` is
the stale line captured at the top of the function. -/
def runeRegularInsert (tlwc : Tlwc) (r : Char) (ln : String) (e1 : Editor) : Editor :=
  let e2 := { e1 with
    lines := e1.lines.set e1.cursorLine
      (ln.take e1.cursorCol ++ String.mk [r] ++ ln.drop e1.cursorCol),
    cursorCol := e1.cursorCol + 1 }
  updateLineTokens tlwc e2 e2.cursorLine

/-- `(*Editor).handleRuneInput`.  Note two behaviours of the source that
are preserved on purpose: the dedent branch fires when `cursorCol` equals
the length of the *trimmed* line (not of the indentation), and both the
skip-over test and the final insertion re-use the stale `ln` captured
before the dedent rewrote the line. -/
def handleRuneInput (tlwc : Tlwc) (r : Char) (e : Editor) : Editor :=
  let ln := e.lines.getD e.cursorLine ""
  let e1 := runeDedentStage r e
  match runePairLoop tlwc r ln e1 autoClosePairs with
  | some e2 => e2
  | none => runeRegularInsert tlwc r ln e1

/-- The `tcell.KeyEnter` case of `handleInteractive`, including the
bracket-pair split. -/
def handleEnter (tlwc : Tlwc) (e : Editor) : Editor :=
  let ln := e.lines.getD e.cursorLine ""
  let newLine := if e.cursorCol < ln.length then ln.drop e.cursorCol else ""
  let e0 :=
    if e.cursorCol < ln.length then
      { e with lines := e.lines.set e.cursorLine (ln.take e.cursorCol) }
    else e
  if 0 < e.cursorCol ∧ e.cursorCol < ln.length ∧
      isBracketPair (strCharAt ln (e.cursorCol - 1)) (strCharAt ln e.cursorCol) then
    let indent := detectIndentation (e0.lines.getD e.cursorLine "")
    let innerIndent := indent ++ "\t"
    let leftL := (e0.lines.getD e.cursorLine "").take e.cursorCol
    let lines1 := e0.lines.set e.cursorLine leftL
    updateSyntaxHighlighting tlwc
      { e0 with
        lines := insertAllAt lines1 (e.cursorLine + 1) [innerIndent, indent ++ newLine],
        lineTokens := insertAllAt e0.lineTokens (e.cursorLine + 1) [[], []],
        embeddedContexts := insertAllAt e0.embeddedContexts (e.cursorLine + 1) [[], []],
        cursorLine := e.cursorLine + 1,
        cursorCol := innerIndent.length,
        dirty := true }
  else
    let smartIndent := getSmartIndentation e0 e.cursorLine
    let newLineWithIndent := smartIndent ++ newLine
    let lines2 := insertAllAt e0.lines (e.cursorLine + 1) [newLineWithIndent]
    let toks2 := insertAllAt e0.lineTokens (e.cursorLine + 1) [[]]
    let ctxs2 := insertAllAt e0.embeddedContexts (e.cursorLine + 1) [[]]
    let cl := e.cursorLine + 1
    let newLineContent := goTrimSpace newLine
    let eMid :=
      if 0 < newLineContent.length ∧
          (strCharAt newLineContent 0 = rbraceChar ∨ strCharAt newLineContent 0 = ']' ∨
           strCharAt newLineContent 0 = ')') then
        let dedentedIndent := getDedentedIndentation smartIndent
        { e0 with lines := lines2.set cl (dedentedIndent ++ newLine), lineTokens := toks2,
                  embeddedContexts := ctxs2, cursorLine := cl,
                  cursorCol := dedentedIndent.length, dirty := true }
      else
        { e0 with lines := lines2, lineTokens := toks2, embeddedContexts := ctxs2,
                  cursorLine := cl, cursorCol := smartIndent.length, dirty := true }
    updateSyntaxHighlighting tlwc eMid

/-- The `tcell.KeyBackspace` case of `handleInteractive`. -/
def handleBackspace (tlwc : Tlwc) (e : Editor) : Editor :=
  let ln := e.lines.getD e.cursorLine ""
  if 0 < e.cursorCol then
    if e.cursorCol < ln.length ∧
        isBracketPair (strCharAt ln (e.cursorCol - 1)) (strCharAt ln e.cursorCol) then
      let e2 := { e with
        lines := e.lines.set e.cursorLine (ln.take (e.cursorCol - 1) ++ ln.drop (e.cursorCol + 1)),
        cursorCol := e.cursorCol - 1, dirty := true }
      updateLineTokens tlwc e2 e2.cursorLine
    else
      let e2 := { e with
        lines := e.lines.set e.cursorLine (ln.take (e.cursorCol - 1) ++ ln.drop e.cursorCol),
        cursorCol := e.cursorCol - 1, dirty := true }
      updateLineTokens tlwc e2 e2.cursorLine
  else if 0 < e.cursorLine then
    let prev := e.lines.getD (e.cursorLine - 1) ""
    let lines1 := e.lines.set (e.cursorLine - 1) (prev ++ ln)
    let e2 := { e with
      lines := removeAt lines1 e.cursorLine,
      lineTokens := removeAt e.lineTokens e.cursorLine,
      embeddedContexts := removeAt e.embeddedContexts e.cursorLine,
      cursorLine := e.cursorLine - 1,
      cursorCol := prev.length, dirty := true }
    updateLineTokens tlwc e2 e2.cursorLine
  else e

/-- The `tcell.KeyDelete` case of `handleInteractive`. -/
def handleDelete (tlwc : Tlwc) (e : Editor) : Editor :=
  let ln := e.lines.getD e.cursorLine ""
  if e.cursorCol < ln.length then
    let e2 := { e with
      lines := e.lines.set e.cursorLine (ln.take e.cursorCol ++ ln.drop (e.cursorCol + 1)),
      dirty := true }
    updateLineTokens tlwc e2 e.cursorLine
  else if e.cursorLine < e.lines.length - 1 then
    let nxt := e.lines.getD (e.cursorLine + 1) ""
    let lines1 := e.lines.set e.cursorLine (ln ++ nxt)
    let e2 := { e with
      lines := removeAt lines1 (e.cursorLine + 1),
      lineTokens := removeAt e.lineTokens (e.cursorLine + 1),
      embeddedContexts := removeAt e.embeddedContexts (e.cursorLine + 1),
      dirty := true }
    updateLineTokens tlwc e2 e.cursorLine
  else e

/-- The `tcell.KeyTab` case of `handleInteractive`. -/
def handleTab (tlwc : Tlwc) (e : Editor) : Editor :=
  let ln := e.lines.getD e.cursorLine ""
  let e2 := { e with
    lines := e.lines.set e.cursorLine (ln.take e.cursorCol ++ "\t" ++ ln.drop e.cursorCol),
    cursorCol := e.cursorCol + 1 }
  { updateLineTokens tlwc e2 e2.cursorLine with dirty := true }

/-- `strings.Split(strings.ReplaceAll(out, "\r\n", "\n"), "\n")`. -/
def replaceCRLF : List Char → List Char
  | '\r' :: '\n' :: t => '\n' :: replaceCRLF t
  | c :: t => c :: replaceCRLF t
  | [] => []

def splitOnNlChars : List Char → List (List Char)
  | [] => [[]]
  | c :: t =>
    if c = '\n' then [] :: splitOnNlChars t
    else
      match splitOnNlChars t with
      | h :: r => (c :: h) :: r
      | [] => [[c]]

def goSplitLines (s : String) : List String :=
  (splitOnNlChars (replaceCRLF s.data)).map String.mk

/-- `(*Editor).formatBuffer`.  The external formatter
(`formatSourceGo` / `formatJSON`, spec §6 `reformat`) is a boundary call;
its response is the `result` parameter (`none` = error). -/
def formatBuffer (tlwc : Tlwc) (e : Editor) (result : Option String) : Editor :=
  match e.format with
  | FileFormat.Go =>
    match result with
    | some out => updateSyntaxHighlighting tlwc { e with lines := goSplitLines out, dirty := false }
    | none => e
  | FileFormat.JSON =>
    match result with
    | some out => updateSyntaxHighlighting tlwc { e with lines := goSplitLines out, dirty := false }
    | none => e
  | _ => e

/-- `(*Editor).loadMoreLines`, given the lines the boundary read
(`readLinesFromReader`); file-handle bookkeeping is not modeled. -/
def loadMoreLines (tlwc : Tlwc) (e : Editor) (newLines : List String) : Editor :=
  if newLines.isEmpty then e
  else updateSyntaxHighlighting tlwc { e with lines := e.lines ++ newLines }

/-- `NewEditor`'s initial state. -/
def NewEditor : Editor :=
  Editor.mk [""] 0 0 [[]] [[]] PlainText false

/-- The line list `Run` builds from a successfully read file's content. -/
def loadInitial (content : String) : List String :=
  if content.length = 0 then [""]
  else
    let ls := (splitOnNlChars content.data).map String.mk
    let ls := if ls ≠ [] ∧ ls.getLast? = some "" then ls.dropLast else ls
    if ls = [] then [""] else ls

/-- The structural edit intents of the claims: rune input, Backspace,
Delete, Enter (including the bracket-pair split), Tab, a full re-highlight,
a reformat (with the boundary's response) and a streamed append. -/
inductive EditOp where
  | runeInput (r : Char)
  | enter
  | backspace
  | deleteKey
  | tabKey
  | rehighlight
  | formatCmd (result : Option String)
  | appendLines (ls : List String)

def stepOp (tlwc : Tlwc) (op : EditOp) (e : Editor) : Editor :=
  match op with
  | .runeInput r => { handleRuneInput tlwc r e with dirty := true }
  | .enter => handleEnter tlwc e
  | .backspace => handleBackspace tlwc e
  | .deleteKey => handleDelete tlwc e
  | .tabKey => handleTab tlwc e
  | .rehighlight => updateSyntaxHighlighting tlwc e
  | .formatCmd result => formatBuffer tlwc e result
  | .appendLines ls => loadMoreLines tlwc e ls

def applyOps (tlwc : Tlwc) (ops : List EditOp) (e : Editor) : Editor :=
  ops.foldl (fun acc op => stepOp tlwc op acc) e

/-- A trivial tokenizer: what `tokenizeLineWithContext` returns for the
PlainText highlighter installed by `NewEditor`. -/
def emptyTlwc : Tlwc := fun _ => ([], [])

/-- Two spans intersect without either containing the other (the overlap
shape the spec's containment law forbids). -/
def tokensPartiallyOverlap (t u : Token) : Bool :=
  decide (t.start < u.stop) && decide (u.start < t.stop) &&
  !(decide (t.start ≤ u.start) && decide (u.stop ≤ t.stop)) &&
  !(decide (u.start ≤ t.start) && decide (t.stop ≤ u.stop))

/-- Line exhibiting a partial overlap between the doctype and comment
patterns of the HTML grammar. -/
def c2Line : List Char := "<!DOCTYPE <!-- x > -->".data

/-- Line whose keyword token ("a") coexists with a comment token. -/
def c2wLine : List Char := "a <!-- b -->".data

/-- Line on which the HTML pattern-enumeration order changes the token
list (`a=`). -/
def c3Line : List Char := "a=".data

/-- A Go buffer of one `package` clause and four blank lines, cursor on
the last line; joined text `"package x\n\n\n\n"`, which `gofmt`
reformats to `"package x\n"`. -/
def formatDemoEditor : Editor :=
  Editor.mk ["package x", "", "", "", ""] 4 0 [[], [], [], [], []] [[], [], [], [], []]
    FileFormat.Go true

/-- Cursor between the two quotes of `""` (immediately before an existing
closing quote). -/
def quoteDemoEditor : Editor :=
  Editor.mk ["\"\""] 0 1 [[]] [[]] PlainText false

/-- Witness state for the amended quote behaviour: no quote on the line
yet. -/
def quoteWitnessEditor : Editor :=
  Editor.mk ["ab"] 0 2 [[]] [[]] PlainText false

/-- Cursor between the brackets of `()`. -/
def pairDemoEditor : Editor :=
  Editor.mk ["()"] 0 1 [[]] [[]] PlainText false

/-- Witness state for the amended Backspace behaviour: plain character
deletion. -/
def backspaceWitnessEditor : Editor :=
  Editor.mk ["ab", "cd"] 1 0 [[], []] [[], []] PlainText false

/-- An indented empty line (`"\t"`), cursor after the tab: a typed `}`
would become the line's first non-whitespace character. -/
def dedentDemoA : Editor :=
  Editor.mk ["\t"] 0 1 [[]] [[]] FileFormat.Go true

/-- `"\tx"` with the cursor after the tab: here the source's dedent
condition does fire. -/
def dedentDemoB : Editor :=
  Editor.mk ["\tx"] 0 1 [[]] [[]] FileFormat.Go true

/-- The structural invariant of the line buffer: the three parallel
sequences have equal length (spec §3 / §8). -/
def editorInv (e : Editor) : Prop :=
  e.lines.length = e.lineTokens.length ∧ e.lines.length = e.embeddedContexts.length

theorem removeAt_length (l : List α) (i : Nat) :
    (removeAt l i).length = min i l.length + (l.length - (i + 1)) := by
  simp [removeAt]

theorem insertAllAt_length (l : List α) (i : Nat) (xs : List α) :
    (insertAllAt l i xs).length = min i l.length + xs.length + (l.length - i) := by
  simp [insertAllAt]
  omega

@[simp] theorem updateSyntaxHighlighting_lines (tlwc : Tlwc) (e : Editor) :
    (updateSyntaxHighlighting tlwc e).lines = e.lines := rfl

@[simp] theorem updateSyntaxHighlighting_cursorLine (tlwc : Tlwc) (e : Editor) :
    (updateSyntaxHighlighting tlwc e).cursorLine = e.cursorLine := rfl

@[simp] theorem updateSyntaxHighlighting_cursorCol (tlwc : Tlwc) (e : Editor) :
    (updateSyntaxHighlighting tlwc e).cursorCol = e.cursorCol := rfl

theorem updateSyntaxHighlighting_inv (tlwc : Tlwc) (e : Editor) :
    editorInv (updateSyntaxHighlighting tlwc e) := by
  simp [editorInv, updateSyntaxHighlighting]

@[simp] theorem updateLineTokens_lines (tlwc : Tlwc) (e : Editor) (i : Nat) :
    (updateLineTokens tlwc e i).lines = e.lines := by
  unfold updateLineTokens
  split <;> rfl

@[simp] theorem updateLineTokens_cursorLine (tlwc : Tlwc) (e : Editor) (i : Nat) :
    (updateLineTokens tlwc e i).cursorLine = e.cursorLine := by
  unfold updateLineTokens
  split <;> rfl

@[simp] theorem updateLineTokens_cursorCol (tlwc : Tlwc) (e : Editor) (i : Nat) :
    (updateLineTokens tlwc e i).cursorCol = e.cursorCol := by
  unfold updateLineTokens
  split <;> rfl

@[simp] theorem updateLineTokens_lineTokens_length (tlwc : Tlwc) (e : Editor) (i : Nat) :
    (updateLineTokens tlwc e i).lineTokens.length = e.lineTokens.length := by
  unfold updateLineTokens
  split <;> simp

@[simp] theorem updateLineTokens_embeddedContexts_length (tlwc : Tlwc) (e : Editor) (i : Nat) :
    (updateLineTokens tlwc e i).embeddedContexts.length = e.embeddedContexts.length := by
  unfold updateLineTokens
  split <;> simp

theorem insertAutoClosePair_lengths (tlwc : Tlwc) (e : Editor) (o c : Char) :
    (insertAutoClosePair tlwc e o c).lines.length = e.lines.length ∧
    (insertAutoClosePair tlwc e o c).lineTokens.length = e.lineTokens.length ∧
    (insertAutoClosePair tlwc e o c).embeddedContexts.length = e.embeddedContexts.length := by
  simp [insertAutoClosePair]

theorem runePairLoop_some_lengths (tlwc : Tlwc) (r : Char) (ln : String) (e e' : Editor)
    (ps : List (Char × Char)) (h : runePairLoop tlwc r ln e ps = some e') :
    e'.lines.length = e.lines.length ∧
    e'.lineTokens.length = e.lineTokens.length ∧
    e'.embeddedContexts.length = e.embeddedContexts.length := by
  induction ps with
  | nil => simp [runePairLoop] at h
  | cons pr rest ih =>
    unfold runePairLoop at h
    split at h
    · split at h
      · split at h
        · cases h
          exact insertAutoClosePair_lengths tlwc e pr.1 pr.2
        · exact ih h
      · cases h
        exact insertAutoClosePair_lengths tlwc e pr.1 pr.2
    · split at h
      · split at h
        · cases h
          exact ⟨rfl, rfl, rfl⟩
        · exact ih h
      · exact ih h

theorem runeDedentStage_lengths (r : Char) (e : Editor) :
    (runeDedentStage r e).lines.length = e.lines.length ∧
    (runeDedentStage r e).lineTokens.length = e.lineTokens.length ∧
    (runeDedentStage r e).embeddedContexts.length = e.embeddedContexts.length := by
  simp only [runeDedentStage]
  split <;> simp

theorem runeRegularInsert_lengths (tlwc : Tlwc) (r : Char) (ln : String) (e1 : Editor) :
    (runeRegularInsert tlwc r ln e1).lines.length = e1.lines.length ∧
    (runeRegularInsert tlwc r ln e1).lineTokens.length = e1.lineTokens.length ∧
    (runeRegularInsert tlwc r ln e1).embeddedContexts.length = e1.embeddedContexts.length := by
  simp [runeRegularInsert]

theorem handleRuneInput_lengths (tlwc : Tlwc) (r : Char) (e : Editor) :
    (handleRuneInput tlwc r e).lines.length = e.lines.length ∧
    (handleRuneInput tlwc r e).lineTokens.length = e.lineTokens.length ∧
    (handleRuneInput tlwc r e).embeddedContexts.length = e.embeddedContexts.length := by
  have hd := runeDedentStage_lengths r e
  cases h : runePairLoop tlwc r (e.lines.getD e.cursorLine "") (runeDedentStage r e) autoClosePairs with
  | some e2 =>
    have h1 := runePairLoop_some_lengths _ _ _ _ _ _ h
    simp only [handleRuneInput, h]
    exact ⟨h1.1.trans hd.1, h1.2.1.trans hd.2.1, h1.2.2.trans hd.2.2⟩
  | none =>
    have h2 := runeRegularInsert_lengths tlwc r (e.lines.getD e.cursorLine "") (runeDedentStage r e)
    simp only [handleRuneInput, h]
    exact ⟨h2.1.trans hd.1, h2.2.1.trans hd.2.1, h2.2.2.trans hd.2.2⟩

theorem handleTab_lengths (tlwc : Tlwc) (e : Editor) :
    (handleTab tlwc e).lines.length = e.lines.length ∧
    (handleTab tlwc e).lineTokens.length = e.lineTokens.length ∧
    (handleTab tlwc e).embeddedContexts.length = e.embeddedContexts.length := by
  simp [handleTab]

theorem handleEnter_inv (tlwc : Tlwc) (e : Editor) : editorInv (handleEnter tlwc e) := by
  simp only [handleEnter]
  split <;> apply updateSyntaxHighlighting_inv

theorem handleBackspace_inv (tlwc : Tlwc) (e : Editor) (h : editorInv e) :
    editorInv (handleBackspace tlwc e) := by
  obtain ⟨h1, h2⟩ := h
  simp only [handleBackspace]
  split
  · split <;> exact ⟨by simp [h1], by simp [h2]⟩
  · split
    · refine ⟨?_, ?_⟩ <;> simp [editorInv, removeAt_length, h1, h2] <;> omega
    · exact ⟨h1, h2⟩

theorem handleDelete_inv (tlwc : Tlwc) (e : Editor) (h : editorInv e) :
    editorInv (handleDelete tlwc e) := by
  obtain ⟨h1, h2⟩ := h
  simp only [handleDelete]
  split
  · exact ⟨by simp [h1], by simp [h2]⟩
  · split
    · refine ⟨?_, ?_⟩ <;> simp [editorInv, removeAt_length, h1, h2] <;> omega
    · exact ⟨h1, h2⟩

theorem formatBuffer_inv (tlwc : Tlwc) (e : Editor) (result : Option String)
    (h : editorInv e) : editorInv (formatBuffer tlwc e result) := by
  simp only [formatBuffer]
  split
  · split
    · apply updateSyntaxHighlighting_inv
    · exact h
  · split
    · apply updateSyntaxHighlighting_inv
    · exact h
  · exact h

theorem loadMoreLines_inv (tlwc : Tlwc) (e : Editor) (ls : List String)
    (h : editorInv e) : editorInv (loadMoreLines tlwc e ls) := by
  simp only [loadMoreLines]
  split
  · exact h
  · apply updateSyntaxHighlighting_inv

theorem stepOp_inv (tlwc : Tlwc) (op : EditOp) (e : Editor) (h : editorInv e) :
    editorInv (stepOp tlwc op e) := by
  obtain ⟨h1, h2⟩ := h
  cases op with
  | runeInput r =>
    obtain ⟨a, b, c⟩ := handleRuneInput_lengths tlwc r e
    constructor <;> simp only [stepOp] <;> omega
  | enter => exact handleEnter_inv tlwc e
  | backspace => exact handleBackspace_inv tlwc e ⟨h1, h2⟩
  | deleteKey => exact handleDelete_inv tlwc e ⟨h1, h2⟩
  | tabKey =>
    obtain ⟨a, b, c⟩ := handleTab_lengths tlwc e
    constructor <;> simp only [stepOp] <;> omega
  | rehighlight => exact updateSyntaxHighlighting_inv tlwc e
  | formatCmd result => exact formatBuffer_inv tlwc e result ⟨h1, h2⟩
  | appendLines ls => exact loadMoreLines_inv tlwc e ls ⟨h1, h2⟩

theorem applyOps_inv (tlwc : Tlwc) (ops : List EditOp) (e : Editor) (h : editorInv e) :
    editorInv (applyOps tlwc ops e) := by
  induction ops generalizing e with
  | nil => exact h
  | cons op rest ih => exact ih (stepOp tlwc op e) (stepOp_inv tlwc op e h)

/-- C1: with the editor parametric in its per-line tokenizer, every
sequence of the claim's structural operations applied to `NewEditor`'s
initial state leaves `len(lines) = len(lineTokens) = len(embeddedContexts)`
(since the sequence is arbitrary, this is the invariant after every
operation of any longer sequence as well). -/
theorem c1_parallel_arrays (tlwc : Tlwc) (ops : List EditOp) :
    editorInv (applyOps tlwc ops NewEditor) :=
  applyOps_inv tlwc ops NewEditor ⟨rfl, rfl⟩

theorem splitOnNlChars_ne_nil (l : List Char) : splitOnNlChars l ≠ [] := by
  induction l with
  | nil => simp [splitOnNlChars]
  | cons c t ih =>
    simp only [splitOnNlChars]
    split
    · simp
    · cases h : splitOnNlChars t <;> simp

theorem goSplitLines_length_pos (s : String) : 1 ≤ (goSplitLines s).length := by
  simp only [goSplitLines, List.length_map]
  have h := splitOnNlChars_ne_nil (replaceCRLF s.data)
  cases hh : splitOnNlChars (replaceCRLF s.data) with
  | nil => exact absurd hh h
  | cons a b => simp

theorem handleEnter_lines_pos (tlwc : Tlwc) (e : Editor) (h : 1 ≤ e.lines.length) :
    1 ≤ (handleEnter tlwc e).lines.length := by
  simp only [handleEnter]
  split
  · simp only [updateSyntaxHighlighting_lines, insertAllAt_length, List.length_cons,
      List.length_nil, List.length_set]
    omega
  · split <;> split <;> simp [insertAllAt_length] <;> omega

theorem handleBackspace_lines_pos (tlwc : Tlwc) (e : Editor) (h : 1 ≤ e.lines.length) :
    1 ≤ (handleBackspace tlwc e).lines.length := by
  simp only [handleBackspace]
  split
  · split <;> simpa using h
  · split
    · rename_i hcl
      simp only [updateLineTokens_lines, removeAt_length, List.length_set]
      omega
    · exact h

theorem handleDelete_lines_pos (tlwc : Tlwc) (e : Editor) (h : 1 ≤ e.lines.length) :
    1 ≤ (handleDelete tlwc e).lines.length := by
  simp only [handleDelete]
  split
  · simpa using h
  · split
    · simp only [updateLineTokens_lines, removeAt_length, List.length_set]
      omega
    · exact h

theorem formatBuffer_lines_pos (tlwc : Tlwc) (e : Editor) (result : Option String)
    (h : 1 ≤ e.lines.length) : 1 ≤ (formatBuffer tlwc e result).lines.length := by
  simp only [formatBuffer]
  split
  · split
    · exact goSplitLines_length_pos _
    · exact h
  · split
    · exact goSplitLines_length_pos _
    · exact h
  · exact h

theorem stepOp_lines_pos (tlwc : Tlwc) (op : EditOp) (e : Editor) (h : 1 ≤ e.lines.length) :
    1 ≤ (stepOp tlwc op e).lines.length := by
  cases op with
  | runeInput r =>
    have a := (handleRuneInput_lengths tlwc r e).1
    simp only [stepOp]
    omega
  | enter => exact handleEnter_lines_pos tlwc e h
  | backspace => exact handleBackspace_lines_pos tlwc e h
  | deleteKey => exact handleDelete_lines_pos tlwc e h
  | tabKey =>
    have a := (handleTab_lengths tlwc e).1
    simp only [stepOp]
    omega
  | rehighlight => simpa using h
  | formatCmd result => exact formatBuffer_lines_pos tlwc e result h
  | appendLines ls =>
    simp only [stepOp, loadMoreLines]
    split
    · exact h
    · simp only [updateSyntaxHighlighting_lines, List.length_append]
      omega

theorem applyOps_lines_pos (tlwc : Tlwc) (ops : List EditOp) (e : Editor)
    (h : 1 ≤ e.lines.length) : 1 ≤ (applyOps tlwc ops e).lines.length := by
  induction ops generalizing e with
  | nil => exact h
  | cons op rest ih => exact ih (stepOp tlwc op e) (stepOp_lines_pos tlwc op e h)

theorem ite_nil_singleton_length (l : List String) :
    1 ≤ (if l = [] then [""] else l).length := by
  split
  · simp
  · rename_i h
    exact List.length_pos.mpr h

theorem loadInitial_length_pos (content : String) : 1 ≤ (loadInitial content).length := by
  simp only [loadInitial]
  split
  · simp
  · exact ite_nil_singleton_length _

/-- C10: the buffer never becomes empty: `NewEditor` starts at `[""]`,
loading any (possibly empty) file content yields at least one line, and
every modeled edit operation preserves `1 ≤ len(lines)`. -/
theorem c10_lines_never_empty (tlwc : Tlwc) (ops : List EditOp) (content : String) :
    1 ≤ (applyOps tlwc ops NewEditor).lines.length ∧ 1 ≤ (loadInitial content).length :=
  ⟨applyOps_lines_pos tlwc ops NewEditor (by simp [NewEditor]),
   loadInitial_length_pos content⟩

theorem isPositionCovered_append (s t : Nat) (l l' : List Token) :
    isPositionCovered s t (l ++ l') = (isPositionCovered s t l || isPositionCovered s t l') := by
  simp [isPositionCovered, List.any_append]

theorem keywordStep_mem (g : Grammar) (line : List Char) (acc : List Token)
    (w : Nat × Nat) (tok : Token) (h : tok ∈ keywordStep g line acc w) :
    tok ∈ acc ∨ isPositionCovered tok.start tok.stop acc = false := by
  unfold keywordStep at h
  split at h
  · exact Or.inl h
  · split at h
    · rename_i hcov _
      rcases List.mem_append.mp h with h1 | h1
      · exact Or.inl h1
      · simp only [List.mem_singleton] at h1
        subst h1
        right
        simpa using hcov
    · exact Or.inl h

theorem keywordFold_mem (g : Grammar) (line : List Char) (ws : List (Nat × Nat))
    (acc : List Token) (tok : Token) (h : tok ∈ ws.foldl (keywordStep g line) acc) :
    tok ∈ acc ∨ isPositionCovered tok.start tok.stop acc = false := by
  induction ws generalizing acc with
  | nil => exact Or.inl h
  | cons w rest ih =>
    rcases ih (keywordStep g line acc w) h with h1 | h1
    · exact keywordStep_mem g line acc w tok h1
    · right
      unfold keywordStep at h1
      split at h1
      · exact h1
      · split at h1
        · rw [isPositionCovered_append] at h1
          simp only [Bool.or_eq_false_iff] at h1
          exact h1.1
        · exact h1

/-- C2 (corrected claim): the containment rule is a per-candidate filter of
the coverage-checked phases, not a global no-overlap invariant — every
token the keyword phase adds has a span not contained in any token present
when it was checked (in particular in any literal-phase token); the
literal phase itself performs no mutual check, so the final list may
contain partially overlapping tokens (see the counterexample). -/
theorem c2_containment_filter (g : Grammar) (line : List Char) (tok : Token)
    (h : tok ∈ keywordPass g line (sortTokens (phase1Tokens g line))) :
    tok ∈ sortTokens (phase1Tokens g line) ∨
      isPositionCovered tok.start tok.stop (sortTokens (phase1Tokens g line)) = false :=
  keywordFold_mem g line (wordSpans line) (sortTokens (phase1Tokens g line)) tok h

/-- C2 witness: on `a <!-- b -->` the HTML keyword `a` is emitted and is
not contained in the literal-phase comment token. -/
theorem c2_containment_filter_witness :
    Token.mk TokenKeyword 0 1 HTML ∈
      keywordPass htmlGrammarA c2wLine (sortTokens (phase1Tokens htmlGrammarA c2wLine)) ∧
    (Token.mk TokenKeyword 0 1 HTML ∈ sortTokens (phase1Tokens htmlGrammarA c2wLine) ∨
      isPositionCovered 0 1 (sortTokens (phase1Tokens htmlGrammarA c2wLine)) = false) :=
  ⟨by decide, c2_containment_filter htmlGrammarA c2wLine (Token.mk TokenKeyword 0 1 HTML) (by decide)⟩

/-- C2 counterexample: with the HTML grammar, tokenizing
`<!DOCTYPE <!-- x > -->` emits a doctype token `[0,18)` and a comment
token `[10,22)` that partially overlap (neither is nested in the other,
and nothing is discarded), refuting the claim that no two emitted tokens
partially overlap.  (On this line every pattern-enumeration order yields
the same list.) -/
theorem c2_counterexample :
    tokenizeLine htmlGrammarA c2Line =
      [Token.mk TokenDoctype 0 18 HTML, Token.mk TokenComment 10 22 HTML] ∧
    tokensPartiallyOverlap (Token.mk TokenDoctype 0 18 HTML)
      (Token.mk TokenComment 10 22 HTML) = true := by
  exact ⟨by decide, by decide⟩

/-- C3: the token list is not a function of (grammar map, line) alone —
two enumeration orders of the same HTML pattern map (a permutation, same
keywords, same format) produce different token lists on the line `a=`, so
two runs of `tokenizeLine` on an unchanged line can disagree (Go's map
iteration order varies between runs). -/
theorem c3_map_order_nondeterminism :
    htmlGrammarA.patterns.Perm htmlGrammarB.patterns ∧
    htmlGrammarA.keywords = htmlGrammarB.keywords ∧
    htmlGrammarA.format = htmlGrammarB.format ∧
    htmlGrammarA.refinements = htmlGrammarB.refinements ∧
    tokenizeLine htmlGrammarA c3Line ≠ tokenizeLine htmlGrammarB c3Line := by
  refine ⟨?_, rfl, rfl, rfl, by decide⟩
  exact List.Perm.append_left
    [(TokenComment, htmlCommentFind), (TokenDoctype, htmlDoctypeFind),
     (TokenTag, htmlTagFind), (TokenValue, htmlValueFind), (TokenEntity, htmlEntityFind)]
    (List.Perm.swap (TokenDelimiter, htmlDelimiterFind) (TokenAttribute, htmlAttributeFind) [])

/-- C4: after a successful reformat, `formatBuffer` replaces the line
array without clamping the cursor: from a valid state (5 lines, cursor on
line 4) the formatter's output `"package x\n"` leaves 2 lines and
`cursorLine = 4`, violating `cursorLine < len(lines)` (the next keystroke
indexes `e.lines[e.cursorLine]`). -/
theorem c4_format_cursor_out_of_bounds :
    editorInv formatDemoEditor ∧
    formatDemoEditor.cursorLine < formatDemoEditor.lines.length ∧
    (formatBuffer emptyTlwc formatDemoEditor (some "package x\n")).lines = ["package x", ""] ∧
    (formatBuffer emptyTlwc formatDemoEditor (some "package x\n")).cursorLine = 4 ∧
    ¬ ((formatBuffer emptyTlwc formatDemoEditor (some "package x\n")).cursorLine <
        (formatBuffer emptyTlwc formatDemoEditor (some "package x\n")).lines.length) := by
  refine ⟨⟨rfl, rfl⟩, by decide, by decide, by decide, by decide⟩

theorem foldl_id {A : Type} {B : Type} (l : List B) (a : A) :
    List.foldl (fun x (_ : B) => x) a l = a := by
  induction l generalizing a with
  | nil => rfl
  | cons b t ih => exact ih a

theorem tokenizeLineWithContext_no_embedded (go : FileFormat → Grammar)
    (dc : FileFormat → List Char → List EmbeddedContext) (fmt : FileFormat) (line : List Char) :
    tokenizeLineWithContext go dc (Highlighter.mk fmt []) line =
      (if fmt = PlainText then ([], [])
       else (sortTokens (tokenizeLine (go fmt) line), dc fmt line)) := by
  simp only [tokenizeLineWithContext, Highlighter.format, Highlighter.embeddedHighlighters]
  split
  · rfl
  · exact congrArg (fun t => (sortTokens t, dc fmt line))
      (foldl_id (dc fmt line) (tokenizeLine (go fmt) line))

/-- C5: every embedded sub-highlighter installed by `NewSyntaxHighlighter`
(via `setupEmbeddedHighlighters` / `createBasicSyntaxHighlighter`) has an
empty embedded-highlighter table, and its own tokenization performs no
embedded-context merging — for any grammar table and context detector, it
returns exactly its sorted single-grammar token list, so embedded
tokenization recursion depth is exactly 1. -/
theorem c5_embedded_depth_one (go : FileFormat → Grammar)
    (dc : FileFormat → List Char → List EmbeddedContext)
    (f g : FileFormat) (sub : Highlighter) (line : List Char)
    (h : (g, sub) ∈ (NewSyntaxHighlighter f).embeddedHighlighters) :
    sub.embeddedHighlighters = [] ∧
    tokenizeLineWithContext go dc sub line =
      (if sub.format = PlainText then ([], [])
       else (sortTokens (tokenizeLine (go sub.format) line), dc sub.format line)) := by
  cases f <;>
    simp only [NewSyntaxHighlighter, newFormatAdjust, basicFormatAdjust,
      setupEmbeddedHighlighters, createBasicSyntaxHighlighter, Highlighter.embeddedHighlighters,
      List.mem_cons, List.not_mem_nil, or_false, Prod.mk.injEq] at h <;>
    rcases h with ⟨rfl, rfl⟩ | ⟨rfl, rfl⟩ <;>
    exact ⟨rfl, tokenizeLineWithContext_no_embedded go dc _ line⟩

/-- C5 witness: the JavaScript sub-highlighter of the HTML highlighter. -/
theorem c5_embedded_depth_one_witness :
    (JavaScript, createBasicSyntaxHighlighter JavaScript) ∈
      (NewSyntaxHighlighter HTML).embeddedHighlighters ∧
    (createBasicSyntaxHighlighter JavaScript).embeddedHighlighters = [] := by
  have h := c5_embedded_depth_one (fun _ => htmlGrammarA) (fun _ _ => []) HTML JavaScript
    (createBasicSyntaxHighlighter JavaScript) "a".data (List.mem_cons_self _ _)
  exact ⟨List.mem_cons_self _ _, h.1⟩

/-- C8: when the format boundary reports failure, `formatBuffer` returns
the state unchanged — no partial replacement of the line/token/context
arrays. -/
theorem c8_format_failure_keeps_buffer (tlwc : Tlwc) (e : Editor) :
    formatBuffer tlwc e none = e := by
  cases hf : e.format <;> simp [formatBuffer, hf]

/-- C9: typing `}` so that it becomes the first non-whitespace character
of the indented line `"\t"` does not dedent the line: the trigger compares
`cursorCol` with the length of the trimmed line (0 here, not the
indentation length 1), so the result is `"\t}"` instead of the documented
`"}"`.  And on `"\tx"` (where the trigger does fire) the later insertion
uses the stale pre-dedent line, producing `"}\tx"` instead of `"}x"`. -/
theorem c9_retroactive_dedent_broken :
    (handleRuneInput emptyTlwc rbraceChar dedentDemoA).lines = ["\t\x7d"] ∧
    (handleRuneInput emptyTlwc rbraceChar dedentDemoA).cursorCol = 2 ∧
    (handleRuneInput emptyTlwc rbraceChar dedentDemoA).lines ≠ ["\x7d"] ∧
    (handleRuneInput emptyTlwc rbraceChar dedentDemoB).lines = ["\x7d\tx"] ∧
    (handleRuneInput emptyTlwc rbraceChar dedentDemoB).lines ≠ ["\x7dx"] := by
  refine ⟨by decide, by decide, by decide, by decide, by decide⟩

theorem runeDedentStage_not_closing (q : Char) (e : Editor)
    (hq : ¬(q = rbraceChar ∨ q = ']' ∨ q = ')')) :
    runeDedentStage q e = e := by
  simp only [runeDedentStage]
  exact if_neg (fun hcon => hq hcon.1)

theorem runePairLoop_quote (tlwc : Tlwc) (q : Char) (ln : String) (e : Editor)
    (hq : q = '"' ∨ q = '\'' ∨ q = backquoteChar) :
    runePairLoop tlwc q ln e autoClosePairs =
      (if shouldAutoCloseQuote e q ln then some (insertAutoClosePair tlwc e q q) else none) := by
  rcases hq with rfl | rfl | rfl <;>
    simp [runePairLoop, autoClosePairs, backquoteChar, lbraceChar, rbraceChar]

/-- C6 (corrected claim): typing a quote with an even count of that quote
before the cursor auto-inserts the pair and leaves the cursor between the
two quotes; with an odd count (in particular immediately before an
existing identical quote) the quote is inserted as a single literal
character — there is no skip-over for quote pairs. -/
theorem c6_quote_behavior (tlwc : Tlwc) (e : Editor) (q : Char)
    (hq : q = '"' ∨ q = '\'' ∨ q = backquoteChar) :
    ((((e.lines.getD e.cursorLine "").take e.cursorCol).data.count q) % 2 = 0 →
      (handleRuneInput tlwc q e).lines =
        e.lines.set e.cursorLine
          ((e.lines.getD e.cursorLine "").take e.cursorCol ++ String.mk [q] ++ String.mk [q] ++
            (e.lines.getD e.cursorLine "").drop e.cursorCol) ∧
      (handleRuneInput tlwc q e).cursorCol = e.cursorCol + 1) ∧
    ((((e.lines.getD e.cursorLine "").take e.cursorCol).data.count q) % 2 = 1 →
      (handleRuneInput tlwc q e).lines =
        e.lines.set e.cursorLine
          ((e.lines.getD e.cursorLine "").take e.cursorCol ++ String.mk [q] ++
            (e.lines.getD e.cursorLine "").drop e.cursorCol) ∧
      (handleRuneInput tlwc q e).cursorCol = e.cursorCol + 1) := by
  have hnc : ¬(q = rbraceChar ∨ q = ']' ∨ q = ')') := by
    rcases hq with rfl | rfl | rfl <;> decide
  have hded := runeDedentStage_not_closing q e hnc
  have hloop := runePairLoop_quote tlwc q (e.lines.getD e.cursorLine "") e hq
  constructor
  · intro hcnt
    have hsac : shouldAutoCloseQuote e q (e.lines.getD e.cursorLine "") = true := by
      simp only [shouldAutoCloseQuote]
      simp at hcnt ⊢
      omega
    simp only [handleRuneInput, hded, hloop, hsac, if_true]
    exact ⟨by simp [insertAutoClosePair], by simp [insertAutoClosePair]⟩
  · intro hcnt
    have hsac : shouldAutoCloseQuote e q (e.lines.getD e.cursorLine "") = false := by
      simp only [shouldAutoCloseQuote]
      simp at hcnt ⊢
      omega
    simp only [handleRuneInput, hded, hloop, hsac, if_false]
    exact ⟨by simp [runeRegularInsert], by simp [runeRegularInsert]⟩

/-- C6 witness: on line `ab` with no prior quote (even count), typing `"`
yields `ab""` with the cursor between the quotes. -/
theorem c6_quote_behavior_witness :
    (('"' : Char) = '"' ∨ ('"' : Char) = '\'' ∨ ('"' : Char) = backquoteChar) ∧
    (handleRuneInput emptyTlwc '"' quoteWitnessEditor).lines = ["ab\"\""] ∧
    (handleRuneInput emptyTlwc '"' quoteWitnessEditor).cursorCol = 3 := by
  refine ⟨Or.inl rfl, ?_, ?_⟩
  · have h := (c6_quote_behavior emptyTlwc quoteWitnessEditor '"' (Or.inl rfl)).1 (by decide)
    rw [h.1]
    decide
  · have h := (c6_quote_behavior emptyTlwc quoteWitnessEditor '"' (Or.inl rfl)).1 (by decide)
    rw [h.2]
    decide

/-- C6 counterexample: with line `""` and the cursor immediately before
the second `"`, typing `"` does not skip over it — the code inserts a
third literal quote (the skip-over branch requires `open != close`), so
the buffer changes, refuting "moves the cursor past it instead of
inserting a duplicate character". -/
theorem c6_counterexample :
    (handleRuneInput emptyTlwc '"' quoteDemoEditor).lines = ["\"\"\""] ∧
    (handleRuneInput emptyTlwc '"' quoteDemoEditor).cursorCol = 2 ∧
    (handleRuneInput emptyTlwc '"' quoteDemoEditor).lines ≠ quoteDemoEditor.lines := by
  refine ⟨by decide, by decide, by decide⟩

/-- C7 (corrected claim): Backspace with `cursorCol > 0` removes the
bracket pair around the cursor when the characters before and after the
cursor form `()`/`[]`/`{}` (two characters spliced), otherwise it splices
exactly the one character before the cursor; with `cursorCol = 0` and
`cursorLine > 0` it merges the line into the previous one, removing one
line with the cursor at the join point. -/
theorem c7_backspace_behavior (tlwc : Tlwc) (e : Editor) :
    (0 < e.cursorCol →
      (e.cursorCol < (e.lines.getD e.cursorLine "").length ∧
        isBracketPair (strCharAt (e.lines.getD e.cursorLine "") (e.cursorCol - 1))
          (strCharAt (e.lines.getD e.cursorLine "") e.cursorCol) = true) →
      (handleBackspace tlwc e).lines =
        e.lines.set e.cursorLine
          ((e.lines.getD e.cursorLine "").take (e.cursorCol - 1) ++
            (e.lines.getD e.cursorLine "").drop (e.cursorCol + 1)) ∧
      (handleBackspace tlwc e).cursorCol = e.cursorCol - 1 ∧
      (handleBackspace tlwc e).cursorLine = e.cursorLine ∧
      (handleBackspace tlwc e).lines.length = e.lines.length) ∧
    (0 < e.cursorCol →
      ¬(e.cursorCol < (e.lines.getD e.cursorLine "").length ∧
        isBracketPair (strCharAt (e.lines.getD e.cursorLine "") (e.cursorCol - 1))
          (strCharAt (e.lines.getD e.cursorLine "") e.cursorCol) = true) →
      (handleBackspace tlwc e).lines =
        e.lines.set e.cursorLine
          ((e.lines.getD e.cursorLine "").take (e.cursorCol - 1) ++
            (e.lines.getD e.cursorLine "").drop e.cursorCol) ∧
      (handleBackspace tlwc e).cursorCol = e.cursorCol - 1 ∧
      (handleBackspace tlwc e).cursorLine = e.cursorLine ∧
      (handleBackspace tlwc e).lines.length = e.lines.length) ∧
    (e.cursorCol = 0 → 0 < e.cursorLine → e.cursorLine < e.lines.length →
      (handleBackspace tlwc e).lines =
        removeAt (e.lines.set (e.cursorLine - 1)
          (e.lines.getD (e.cursorLine - 1) "" ++ e.lines.getD e.cursorLine "")) e.cursorLine ∧
      (handleBackspace tlwc e).cursorLine = e.cursorLine - 1 ∧
      (handleBackspace tlwc e).cursorCol = (e.lines.getD (e.cursorLine - 1) "").length ∧
      (handleBackspace tlwc e).lines.length = e.lines.length - 1) := by
  refine ⟨?_, ?_, ?_⟩
  · intro h1 h2
    simp only [handleBackspace, if_pos h1, if_pos h2]
    refine ⟨by simp, by simp, by simp, by simp⟩
  · intro h1 h2
    simp only [handleBackspace, if_pos h1, if_neg h2]
    refine ⟨by simp, by simp, by simp, by simp⟩
  · intro h0 h1 hlt
    have hnc : ¬ 0 < e.cursorCol := by omega
    simp only [handleBackspace, if_neg hnc, if_pos h1]
    refine ⟨by simp, by simp, by simp, ?_⟩
    simp only [updateLineTokens_lines, removeAt_length, List.length_set]
    omega

/-- C7 witness: Backspace at column 0 of line 1 in `["ab", "cd"]` merges
the lines, leaving `["abcd"]` with the cursor at the join point. -/
theorem c7_backspace_behavior_witness :
    backspaceWitnessEditor.cursorCol = 0 ∧ 0 < backspaceWitnessEditor.cursorLine ∧
    backspaceWitnessEditor.cursorLine < backspaceWitnessEditor.lines.length ∧
    (handleBackspace emptyTlwc backspaceWitnessEditor).lines = ["abcd"] ∧
    (handleBackspace emptyTlwc backspaceWitnessEditor).cursorLine = 0 ∧
    (handleBackspace emptyTlwc backspaceWitnessEditor).cursorCol = 2 := by
  have h := (c7_backspace_behavior emptyTlwc backspaceWitnessEditor).2.2
    (by decide) (by decide) (by decide)
  refine ⟨rfl, by decide, by decide, ?_, ?_, ?_⟩
  · rw [h.1]
    decide
  · rw [h.2.1]
    decide
  · rw [h.2.2.1]
    decide

/-- C7 counterexample: with line `()` and the cursor between the
brackets, Backspace removes both characters (the auto-close pair branch),
not exactly the one character before the cursor — the result is `""`, not
`")"`. -/
theorem c7_counterexample :
    (handleBackspace emptyTlwc pairDemoEditor).lines = [""] ∧
    (handleBackspace emptyTlwc pairDemoEditor).cursorCol = 0 ∧
    (handleBackspace emptyTlwc pairDemoEditor).lines ≠ [")"] := by
  refine ⟨by decide, by decide, by decide⟩
